import Mathlib

/-!
Shallow embedding of the Vello renderer core of Slint, from
src/internal/renderers/vello/itemrenderer.rs and
src/internal/renderers/vello/lib.rs.

Machine floating point values (f32, f64) are modelled as rationals, so the
arithmetic below is the exact real arithmetic of the formulas in the source;
u8 and u32 values are modelled as naturals, i32 as integers. The Rust cast
from float to u8 saturates, which is modelled explicitly. External library
behaviour that the source calls into (euclid rectangle intersection, kurbo
rounded rectangle construction, Rust Option semantics) is embedded from the
documented semantics of those libraries. Gradient paints record the inputs
that fully determine the converted peniko gradient (angle, bounds, stops),
since the geometric reconstruction of the gradient line is performed by an
external helper of the core library and no claim depends on its values.
-/

namespace VelloSpec

/-- Logical space point with f32 coordinates modelled as rationals. -/
structure LogicalPoint where
  x : ℚ
  y : ℚ
  deriving DecidableEq

/-- Logical space size. -/
structure LogicalSize where
  width : ℚ
  height : ℚ
  deriving DecidableEq

/-- Logical space rectangle in euclid style: origin plus size. -/
structure LogicalRect where
  origin : LogicalPoint
  size : LogicalSize
  deriving DecidableEq

/-- The Rust Default value of LogicalRect: zero origin and zero size. -/
def LogicalRect.zeroRect : LogicalRect := ⟨⟨0, 0⟩, ⟨0, 0⟩⟩

/-- Right edge of a rectangle. -/
def LogicalRect.maxX (r : LogicalRect) : ℚ := r.origin.x + r.size.width

/-- Bottom edge of a rectangle. -/
def LogicalRect.maxY (r : LogicalRect) : ℚ := r.origin.y + r.size.height

/-- euclid Rect intersection: the two rectangles are converted to boxes, the
componentwise max of the mins and min of the maxes is taken, and none is
returned when the resulting box is empty (zero or negative extent on either
axis). -/
def LogicalRect.intersection (s o : LogicalRect) : Option LogicalRect :=
  let lox := max s.origin.x o.origin.x
  let loy := max s.origin.y o.origin.y
  let hix := min s.maxX o.maxX
  let hiy := min s.maxY o.maxY
  if lox < hix ∧ loy < hiy then some ⟨⟨lox, loy⟩, ⟨hix - lox, hiy - loy⟩⟩ else none

/-- Two rectangles have no common interior point: their overlap is empty or
degenerate on at least one axis. This is the geometric reading of the word
disjoint for clip rectangles. -/
def LogicalRect.interiorsDisjoint (s o : LogicalRect) : Prop :=
  min s.maxX o.maxX ≤ max s.origin.x o.origin.x ∨
    min s.maxY o.maxY ≤ max s.origin.y o.origin.y

/-- Border radius record of the item renderer interface; the Vello item
renderer only consumes the top left component. -/
structure LogicalBorderRadius where
  top_left : ℚ
  top_right : ℚ
  bottom_right : ℚ
  bottom_left : ℚ
  deriving DecidableEq

/-- kurbo 2D affine map given by six coefficients: a point maps to
(a x + c y + e, b x + d y + f). -/
structure Affine where
  a : ℚ
  b : ℚ
  c : ℚ
  d : ℚ
  e : ℚ
  f : ℚ
  deriving DecidableEq

/-- Identity affine map. -/
def Affine.identity : Affine := ⟨1, 0, 0, 1, 0, 0⟩

/-- Affine composition; m.mul n applies n first and then m, matching the
kurbo multiplication used in the source. -/
def Affine.mul (m n : Affine) : Affine :=
  ⟨m.a * n.a + m.c * n.b,
   m.b * n.a + m.d * n.b,
   m.a * n.c + m.c * n.d,
   m.b * n.c + m.d * n.d,
   m.a * n.e + m.c * n.f + m.e,
   m.b * n.e + m.d * n.f + m.f⟩

/-- kurbo translation map. -/
def Affine.translate (vx vy : ℚ) : Affine := ⟨1, 0, 0, 1, vx, vy⟩

/-- kurbo non uniform scale map. -/
def Affine.scaleNonUniform (sx sy : ℚ) : Affine := ⟨sx, 0, 0, sy, 0, 0⟩

/-- kurbo rectangle given by two corners. -/
structure KRect where
  x0 : ℚ
  y0 : ℚ
  x1 : ℚ
  y1 : ℚ
  deriving DecidableEq

/-- kurbo Rect abs: reorders the corners so that x0 is at most x1 and y0 at
most y1. -/
def KRect.absRect (r : KRect) : KRect :=
  ⟨min r.x0 r.x1, min r.y0 r.y1, max r.x0 r.x1, max r.y0 r.y1⟩

/-- Width of a kurbo rectangle. -/
def KRect.width (r : KRect) : ℚ := r.x1 - r.x0

/-- Height of a kurbo rectangle. -/
def KRect.height (r : KRect) : ℚ := r.y1 - r.y0

/-- Shape handed to the scene: a plain rectangle or a rounded rectangle. -/
inductive KShape
  | rect (r : KRect)
  | roundedRect (r : KRect) (radius : ℚ)
  deriving DecidableEq

/-- kurbo RoundedRect construction from a rectangle and one radius: the
rectangle is normalised with abs, and the radius is replaced by its absolute
value clamped to half the shorter side. -/
def roundedRectFromRect (r : KRect) (radius : ℚ) : KShape :=
  let rr := r.absRect
  let shortest := min rr.width rr.height
  KShape.roundedRect rr (min |radius| (shortest / 2))

/-- Underlying rectangle of a shape, as the kurbo rect accessor returns it. -/
def KShape.rectOf : KShape → KRect
  | .rect r => r
  | .roundedRect r _ => r

/-- Slint color with u8 channels. -/
structure SlintColor where
  red : ℕ
  green : ℕ
  blue : ℕ
  alpha : ℕ
  deriving DecidableEq

/-- One gradient stop of a Slint brush. -/
structure GradientStop where
  color : SlintColor
  position : ℚ
  deriving DecidableEq

/-- Slint brush over the three variants the renderer distinguishes. -/
inductive SlintBrush
  | solidColor (color : SlintColor)
  | linearGradient (angle : ℚ) (stops : List GradientStop)
  | radialGradient (stops : List GradientStop)
  deriving DecidableEq

/-- Modelled from the spec: the is_transparent helper of the Slint core
Brush type, which is part of this repository but not under src. A solid
color brush is fully transparent when its alpha channel is zero; a gradient
brush is fully transparent when every stop has zero alpha. -/
def SlintBrush.is_transparent : SlintBrush → Bool
  | .solidColor c => c.alpha == 0
  | .linearGradient _ stops => stops.all (fun s => s.color.alpha == 0)
  | .radialGradient stops => stops.all (fun s => s.color.alpha == 0)

/-- Modelled from the spec: the fully opaque test of the Slint core Brush
type, which is part of this repository but not under src. A solid color
brush is fully covering when its alpha channel is 255; a gradient brush
when every stop has alpha 255. -/
def SlintBrush.is_full_alpha : SlintBrush → Bool
  | .solidColor c => c.alpha == 255
  | .linearGradient _ stops => stops.all (fun s => s.color.alpha == 255)
  | .radialGradient stops => stops.all (fun s => s.color.alpha == 255)

/-- peniko color with u8 channels. -/
structure PenikoColor where
  r : ℕ
  g : ℕ
  b : ℕ
  a : ℕ
  deriving DecidableEq

/-- to_peniko_color from the source: channelwise copy. -/
def to_peniko_color (c : SlintColor) : PenikoColor := ⟨c.red, c.green, c.blue, c.alpha⟩

/-- peniko color stop: offset plus color. -/
structure PenikoColorStop where
  offset : ℚ
  color : PenikoColor
  deriving DecidableEq

/-- convert_color_stops from the source. -/
def convert_color_stops (stops : List GradientStop) : List PenikoColorStop :=
  stops.map (fun s => ⟨s.position, to_peniko_color s.color⟩)

/-- peniko brush produced by the brush conversion. Gradient variants record
angle, bounds and converted stops, the inputs that fully determine the
constructed peniko gradient. -/
inductive PenikoBrush
  | solid (color : PenikoColor)
  | linearGradient (angle : ℚ) (bounds : KRect) (stops : List PenikoColorStop)
  | radialGradient (bounds : KRect) (stops : List PenikoColorStop)
  deriving DecidableEq

/-- brush_to_peniko_brush_owned from the source: solid colors convert
directly, gradients are reconstructed against the target bounds. -/
def brush_to_peniko_brush_owned (brush : SlintBrush) (bounds : KRect) : PenikoBrush :=
  match brush with
  | .solidColor c => .solid (to_peniko_color c)
  | .linearGradient angle stops => .linearGradient angle bounds (convert_color_stops stops)
  | .radialGradient stops => .radialGradient bounds (convert_color_stops stops)

/-- Rust saturating cast from a float to u8: negative values and NaN go to
zero, values above 255 go to 255, and the fractional part is truncated. -/
def f32ToU8Sat (q : ℚ) : ℕ := if q ≤ 0 then 0 else min 255 (Int.toNat ⌊q⌋)

/-- apply_alpha from the source: the alpha channel of the color is
multiplied by the factor and cast back to u8 with the Rust saturating
cast; the color channels are untouched. -/
def apply_alpha (c : PenikoColor) (alpha : ℚ) : PenikoColor :=
  ⟨c.r, c.g, c.b, f32ToU8Sat (c.a * alpha)⟩

/-- The per draw alpha application repeated in draw_rectangle,
draw_border_rectangle and draw_path: solid brushes get the state alpha
multiplied in, every other brush is passed through unchanged. -/
def applySceneAlpha (b : PenikoBrush) (alpha : ℚ) : PenikoBrush :=
  match b with
  | .solid c => .solid (apply_alpha c alpha)
  | other => other

/-- Pixel of an RGB8 buffer. -/
structure Rgb8Pixel where
  r : ℕ
  g : ℕ
  b : ℕ
  deriving DecidableEq

/-- Pixel of an RGBA8 buffer. -/
structure Rgba8Pixel where
  r : ℕ
  g : ℕ
  b : ℕ
  a : ℕ
  deriving DecidableEq

/-- SharedImageBuffer of the core library. The bufferId field models the
memory address of the pixel data, which the source uses as the cache key. -/
inductive SharedImageBuffer
  | rgb8 (bufferId width height : ℕ) (pixels : List Rgb8Pixel)
  | rgba8 (bufferId width height : ℕ) (pixels : List Rgba8Pixel)
  | rgba8Premultiplied (bufferId width height : ℕ) (pixels : List Rgba8Pixel)
  deriving DecidableEq

/-- Cache key of a buffer: its data pointer address. -/
def SharedImageBuffer.bufKey : SharedImageBuffer → ℕ
  | .rgb8 i _ _ _ => i
  | .rgba8 i _ _ _ => i
  | .rgba8Premultiplied i _ _ _ => i

/-- Width of a buffer. -/
def SharedImageBuffer.bufWidth : SharedImageBuffer → ℕ
  | .rgb8 _ w _ _ => w
  | .rgba8 _ w _ _ => w
  | .rgba8Premultiplied _ w _ _ => w

/-- Height of a buffer. -/
def SharedImageBuffer.bufHeight : SharedImageBuffer → ℕ
  | .rgb8 _ _ h _ => h
  | .rgba8 _ _ h _ => h
  | .rgba8Premultiplied _ _ h _ => h

/-- Whether the source buffer carries premultiplied alpha, which becomes
the peniko image alpha type. -/
def SharedImageBuffer.premultiplied : SharedImageBuffer → Bool
  | .rgb8 _ _ _ _ => false
  | .rgba8 _ _ _ _ => false
  | .rgba8Premultiplied _ _ _ _ => true

/-- RGBA byte stream of a buffer after the conversion performed in
get_or_create_image_data: RGB pixels gain an opaque alpha channel, RGBA
pixels are copied. -/
def SharedImageBuffer.toRgbaBytes : SharedImageBuffer → List ℕ
  | .rgb8 _ _ _ ps => ps.flatMap (fun p => [p.r, p.g, p.b, 255])
  | .rgba8 _ _ _ ps => ps.flatMap (fun p => [p.r, p.g, p.b, p.a])
  | .rgba8Premultiplied _ _ _ ps => ps.flatMap (fun p => [p.r, p.g, p.b, p.a])

/-- Raw byte stream of a buffer without conversion, as as_bytes returns it;
the svg branch of draw_image copies these bytes directly. -/
def SharedImageBuffer.rawBytes : SharedImageBuffer → List ℕ
  | .rgb8 _ _ _ ps => ps.flatMap (fun p => [p.r, p.g, p.b])
  | .rgba8 _ _ _ ps => ps.flatMap (fun p => [p.r, p.g, p.b, p.a])
  | .rgba8Premultiplied _ _ _ ps => ps.flatMap (fun p => [p.r, p.g, p.b, p.a])

/-- Integer rectangle with i32 components, euclid style. -/
structure IntRect where
  ox : ℤ
  oy : ℤ
  w : ℤ
  h : ℤ
  deriving DecidableEq

/-- euclid emptiness test for an integer rectangle: empty unless both
extents are positive. -/
def IntRect.isEmptyRect (r : IntRect) : Bool :=
  if 0 < r.w ∧ 0 < r.h then false else true

/-- Result record of the external fit computation of the core library
(offset, target size, source to target scale factors and the source clip
rectangle of the slice). -/
structure FitResult where
  clip_rect : IntRect
  source_to_target_x : ℚ
  source_to_target_y : ℚ
  size_w : ℚ
  size_h : ℚ
  offset_x : ℚ
  offset_y : ℚ
  deriving DecidableEq

/-- Static texture data of an ImageInner StaticTextures value. -/
structure StaticTexturesData where
  dataBytes : List ℕ
  width : ℕ
  height : ℕ
  deriving DecidableEq

/-- Image source variants dispatched by draw_image. The nine slice variant
records the inner buffer when the inner image is an embedded image, and
nothing otherwise, matching the single pattern the source handles. -/
inductive ImageInner
  | embeddedImage (buffer : SharedImageBuffer)
  | staticTextures (st : StaticTexturesData)
  | backendStorage
  | borrowedOpenGLTexture
  | nineSlice (innerBuffer : Option SharedImageBuffer) (borders : ℕ × ℕ × ℕ × ℕ)
  | svg (naturalW naturalH : ℕ)
  | wgpuTexture
  | noImage
  deriving DecidableEq

/-- Inputs that the environment supplies to one draw_image call: the output
of the external fit function, the optional source clip of the image item,
the slice list produced by the external nine slice fitting, the result of
rasterising an svg (none models a rasterisation error), and the optional
wgpu texture reader together with its optional result. These are external
collaborators of the renderer, specified only at their interface. -/
structure ImageFitEnv where
  fitResult : FitResult
  sourceClip : Option IntRect
  nineSliceFits : List FitResult
  svgRendered : Option SharedImageBuffer
  wgpuReaderResult : Option (Option (ℕ × ℕ × List ℕ))
  deriving DecidableEq

/-- Image paint handed to a scene fill: decoded bytes, alpha type, pixel
size and the sampler alpha. -/
structure ImageBrushData where
  dataBytes : List ℕ
  premultiplied : Bool
  width : ℕ
  height : ℕ
  samplerAlpha : ℚ
  deriving DecidableEq

/-- Paint of a scene operation. -/
inductive ScenePaint
  | brush (b : PenikoBrush)
  | image (i : ImageBrushData)
  deriving DecidableEq

/-- Fill style of a scene fill. -/
inductive FillStyle
  | nonZero
  | evenOdd
  deriving DecidableEq

/-- One operation appended to the vello scene. push_layer records the layer
alpha, the transform and the clip shape; fills and strokes record style,
transform, paint and shape. -/
inductive SceneOp
  | pushLayer (alpha : ℚ) (transform : Affine) (shape : KShape)
  | popLayer
  | fill (style : FillStyle) (transform : Affine) (paint : ScenePaint) (shape : KShape)
  | stroke (width : ℚ) (transform : Affine) (paint : ScenePaint) (shape : KShape)
  deriving DecidableEq

/-- RenderState from the source: clip rectangle in logical space, transform
in physical space, alpha, and the number of vello clip layers pushed while
this state was current. -/
structure RenderState where
  clip : LogicalRect
  transform : Affine
  alpha : ℚ
  clip_layer_count : ℕ
  deriving DecidableEq

/-- The Vello item renderer state. The Rust state stack is a nonempty
vector; it is modelled as the current top frame plus the list of frames
below it (head of below is the frame directly under the top), which keeps
the stack nonempty by construction exactly as the source maintains it. -/
structure Renderer where
  scene : List SceneOp
  top : RenderState
  below : List RenderState
  scale_factor : ℚ
  image_cache : List (ℕ × List ℕ)
  deriving DecidableEq

/-- new_with_transform from the source: initial clip covers the logical
window size, alpha is one, no clip layers yet, single stack frame. -/
def rendererNew (scene : List SceneOp) (cache : List (ℕ × List ℕ)) (logical_size : LogicalSize)
    (scale_factor : ℚ) (initial_transform : Affine) : Renderer :=
  { scene := scene
    top := { clip := ⟨⟨0, 0⟩, logical_size⟩, transform := initial_transform,
             alpha := 1, clip_layer_count := 0 }
    below := []
    scale_factor := scale_factor
    image_cache := cache }

/-- to_physical from the source: logical value times scale factor. -/
def to_physical (r : Renderer) (v : ℚ) : ℚ := v * r.scale_factor

/-- to_kurbo_rect from the source: both corners converted to physical
units. -/
def to_kurbo_rect (r : Renderer) (rect : LogicalRect) : KRect :=
  ⟨to_physical r rect.origin.x, to_physical r rect.origin.y,
   to_physical r (rect.origin.x + rect.size.width),
   to_physical r (rect.origin.y + rect.size.height)⟩

/-- current_transform from the source: the transform of the current state. -/
def current_transform (r : Renderer) : Affine := r.top.transform

/-- Lookup in the image cache, modelling the hash map keyed by the buffer
address. -/
def cacheLookup (cache : List (ℕ × List ℕ)) (k : ℕ) : Option (List ℕ) :=
  match cache with
  | [] => none
  | (k2, v) :: t => if k2 = k then some v else cacheLookup t k

/-- get_or_create_image_data from the source: on a cache hit the cached
bytes are reused, otherwise the buffer is converted to RGBA bytes and
inserted; the returned tuple carries bytes, alpha type, width and height. -/
def get_or_create_image_data (r : Renderer) (buffer : SharedImageBuffer) :
    (List ℕ × Bool × ℕ × ℕ) × Renderer :=
  match cacheLookup r.image_cache buffer.bufKey with
  | some data => ((data, buffer.premultiplied, buffer.bufWidth, buffer.bufHeight), r)
  | none =>
      let data := buffer.toRgbaBytes
      ((data, buffer.premultiplied, buffer.bufWidth, buffer.bufHeight),
        { r with image_cache := (buffer.bufKey, data) :: r.image_cache })

/-- draw_rectangle from the source: converts the brush against the kurbo
rectangle of the item, multiplies the state alpha into solid brushes only,
and appends one nonzero fill of that rectangle under the current
transform. -/
def draw_rectangle (r : Renderer) (background : SlintBrush) (size : LogicalSize) : Renderer :=
  let kurbo_rect := to_kurbo_rect r ⟨⟨0, 0⟩, size⟩
  let peniko_brush := applySceneAlpha (brush_to_peniko_brush_owned background kurbo_rect) r.top.alpha
  { r with
      scene := r.scene ++ [SceneOp.fill FillStyle.nonZero (current_transform r)
        (ScenePaint.brush peniko_brush) (KShape.rect kurbo_rect)] }

/-- Base corner radius of draw_border_rectangle: the top left radius
clamped to half the width and half the height. -/
def borderBaseRadius (tl w h : ℚ) : ℚ := min (min tl (w / 2)) (h / 2)

/-- Outer fill radius of draw_border_rectangle: base radius plus half the
border width, positioning the stroke on the outer edge. -/
def borderFillRadius (tl w h bw : ℚ) : ℚ := borderBaseRadius tl w h + bw / 2

/-- Stroke radius of draw_border_rectangle: half the border width is taken
back off the fill radius when the fill radius strictly exceeds it,
otherwise the fill radius is kept. -/
def borderStrokeRadius (tl w h bw : ℚ) : ℚ :=
  if borderFillRadius tl w h bw > bw / 2 then borderFillRadius tl w h bw - bw / 2
  else borderFillRadius tl w h bw

/-- draw_border_rectangle from the source. A fully transparent border color
forces the border width to zero. With a fully covering border color the
background is drawn inset by the border width with the stroke radius;
otherwise the background is drawn at full size with the fill radius and the
border shape is a separate inset rounded rectangle. The border is stroked
only when the border color is not fully transparent and the width is
positive. -/
def draw_border_rectangle (r : Renderer) (background border_color : SlintBrush)
    (border_width_prop : ℚ) (radius : LogicalBorderRadius) (size : LogicalSize) : Renderer :=
  if size.width ≤ 0 ∨ size.height ≤ 0 then r
  else
    let border_width : ℚ := if border_color.is_transparent then 0 else border_width_prop
    let full_alpha_border := border_color.is_full_alpha
    let fill_radius := borderFillRadius radius.top_left size.width size.height border_width
    let stroke_border_radius := borderStrokeRadius radius.top_left size.width size.height border_width
    let inset_rect : LogicalRect :=
      ⟨⟨border_width, border_width⟩,
       ⟨size.width - 2 * border_width, size.height - 2 * border_width⟩⟩
    let background_shape : KShape :=
      if full_alpha_border then
        roundedRectFromRect (to_kurbo_rect r inset_rect) (to_physical r stroke_border_radius)
      else
        roundedRectFromRect (to_kurbo_rect r ⟨⟨0, 0⟩, size⟩) (to_physical r fill_radius)
    let maybe_border_shape : Option KShape :=
      if full_alpha_border then none
      else some (roundedRectFromRect (to_kurbo_rect r inset_rect) (to_physical r stroke_border_radius))
    let peniko_brush :=
      applySceneAlpha (brush_to_peniko_brush_owned background background_shape.rectOf) r.top.alpha
    let scene1 := r.scene ++ [SceneOp.fill FillStyle.nonZero (current_transform r)
      (ScenePaint.brush peniko_brush) background_shape]
    let scene2 :=
      if border_color.is_transparent = false ∧ 0 < border_width then
        let border_shape_to_stroke := maybe_border_shape.getD background_shape
        let border_peniko_brush :=
          applySceneAlpha (brush_to_peniko_brush_owned border_color border_shape_to_stroke.rectOf)
            r.top.alpha
        scene1 ++ [SceneOp.stroke (to_physical r border_width) (current_transform r)
          (ScenePaint.brush border_peniko_brush) border_shape_to_stroke]
      else scene1
    { r with scene := scene2 }

/-- Scene operations of the embedded image branch of draw_image: a clip
layer over the fitted target rectangle is pushed, the image is filled at
its natural size under the fit transform, and the layer is popped. -/
def embeddedImageOps (r : Renderer) (data : List ℕ) (premult : Bool) (w h : ℕ)
    (fr : FitResult) (source_clip : IntRect) : List SceneOp :=
  let image_transform :=
    (((current_transform r).mul (Affine.translate fr.offset_x fr.offset_y)).mul
      (Affine.scaleNonUniform fr.source_to_target_x fr.source_to_target_y)).mul
      (Affine.translate (-(source_clip.ox : ℚ)) (-(source_clip.oy : ℚ)))
  let target_rect : KRect := ⟨0, 0, (w : ℚ), (h : ℚ)⟩
  let clip_rect : KRect :=
    ⟨fr.offset_x, fr.offset_y, fr.offset_x + fr.size_w, fr.offset_y + fr.size_h⟩
  [SceneOp.pushLayer r.top.alpha (current_transform r) (KShape.rect clip_rect),
   SceneOp.fill FillStyle.nonZero image_transform
     (ScenePaint.image ⟨data, premult, w, h, r.top.alpha⟩) (KShape.rect target_rect),
   SceneOp.popLayer]

/-- Scene operations of one nine slice fit entry: empty slices emit
nothing; a nonempty slice pushes a clip layer over its target rectangle,
fills the whole source image under the slice transform and pops the
layer. -/
def nineSliceFitOps (r : Renderer) (data : List ℕ) (premult : Bool) (imgW imgH : ℕ)
    (fit : FitResult) : List SceneOp :=
  if fit.clip_rect.isEmptyRect then []
  else
    let scale_x := fit.size_w / (fit.clip_rect.w : ℚ)
    let scale_y := fit.size_h / (fit.clip_rect.h : ℚ)
    let translate_x := fit.offset_x - (fit.clip_rect.ox : ℚ) * scale_x
    let translate_y := fit.offset_y - (fit.clip_rect.oy : ℚ) * scale_y
    let slice_transform :=
      ((current_transform r).mul (Affine.translate translate_x translate_y)).mul
        (Affine.scaleNonUniform scale_x scale_y)
    let clip_rect : KRect :=
      ⟨fit.offset_x, fit.offset_y, fit.offset_x + fit.size_w, fit.offset_y + fit.size_h⟩
    let full_image_rect : KRect := ⟨0, 0, (imgW : ℚ), (imgH : ℚ)⟩
    [SceneOp.pushLayer r.top.alpha slice_transform (KShape.rect clip_rect),
     SceneOp.fill FillStyle.nonZero Affine.identity
       (ScenePaint.image ⟨data, premult, imgW, imgH, r.top.alpha⟩) (KShape.rect full_image_rect),
     SceneOp.popLayer]

/-- draw_image from the source. Degenerate target or source sizes return
without drawing; each image source variant then emits its own scene
operations as in the source: embedded images draw through the cache inside
a clip layer bracket, static textures fill directly, nine slices draw one
bracket per nonempty slice, svg images fill the rasterised buffer
directly, wgpu textures fill the read back data directly when a reader is
installed and succeeds, and the remaining variants draw nothing. -/
def draw_image (r : Renderer) (env : ImageFitEnv) (img : ImageInner)
    (size : LogicalSize) (sourceW sourceH : ℕ) : Renderer :=
  if size.width ≤ 0 ∨ size.height ≤ 0 then r
  else if sourceW = 0 ∨ sourceH = 0 then r
  else
    match img with
    | ImageInner.embeddedImage buffer =>
        let res := get_or_create_image_data r buffer
        let r1 := res.2
        let sclip := env.sourceClip.getD ⟨0, 0, (sourceW : ℤ), (sourceH : ℤ)⟩
        { r1 with
            scene := r1.scene ++
              embeddedImageOps r1 res.1.1 res.1.2.1 res.1.2.2.1 res.1.2.2.2 env.fitResult sclip }
    | ImageInner.staticTextures st =>
        let target_rect : KRect :=
          ⟨0, 0, to_physical r size.width, to_physical r size.height⟩
        { r with
            scene := r.scene ++ [SceneOp.fill FillStyle.nonZero (current_transform r)
              (ScenePaint.image ⟨st.dataBytes, true, st.width, st.height, r.top.alpha⟩)
              (KShape.rect target_rect)] }
    | ImageInner.backendStorage => r
    | ImageInner.borrowedOpenGLTexture => r
    | ImageInner.nineSlice innerBuffer _borders =>
        match innerBuffer with
        | none => r
        | some buffer =>
            let res := get_or_create_image_data r buffer
            let r1 := res.2
            { r1 with
                scene := r1.scene ++
                  env.nineSliceFits.flatMap
                    (nineSliceFitOps r1 res.1.1 res.1.2.1 res.1.2.2.1 res.1.2.2.2) }
    | ImageInner.svg _ _ =>
        match env.svgRendered with
        | none => r
        | some buffer =>
            let dest_rect : KRect :=
              ⟨env.fitResult.offset_x, env.fitResult.offset_y,
               env.fitResult.offset_x + env.fitResult.size_w,
               env.fitResult.offset_y + env.fitResult.size_h⟩
            { r with
                scene := r.scene ++ [SceneOp.fill FillStyle.nonZero (current_transform r)
                  (ScenePaint.image
                    ⟨buffer.rawBytes, buffer.premultiplied, buffer.bufWidth, buffer.bufHeight,
                     r.top.alpha⟩) (KShape.rect dest_rect)] }
    | ImageInner.wgpuTexture =>
        match env.wgpuReaderResult with
        | none => r
        | some none => r
        | some (some (w, h, bytes)) =>
            let target_rect : KRect :=
              ⟨0, 0, to_physical r size.width, to_physical r size.height⟩
            { r with
                scene := r.scene ++ [SceneOp.fill FillStyle.nonZero (current_transform r)
                  (ScenePaint.image ⟨bytes, true, w, h, r.top.alpha⟩)
                  (KShape.rect target_rect)] }
    | ImageInner.noImage => r

/-- combine_clip from the source: the clamped border radius and current
transform are computed first, the rectangle is intersected into the state
clip (an empty intersection collapses the clip to the default rectangle
and reports false), the clip layer counter of the current state is
incremented, and exactly one vello clip layer over the rectangle is
pushed, rounded when the radius is positive. -/
def combine_clip (r : Renderer) (rect : LogicalRect) (radius : LogicalBorderRadius)
    (_border_width : ℚ) : Bool × Renderer :=
  let border_radius := min (min radius.top_left (rect.size.width / 2)) (rect.size.height / 2)
  let ct := current_transform r
  let clipRes :=
    match r.top.clip.intersection rect with
    | some c => (true, c)
    | none => (false, LogicalRect.zeroRect)
  let clip_shape : KShape :=
    if border_radius > 0 then
      roundedRectFromRect (to_kurbo_rect r rect) (to_physical r border_radius)
    else
      KShape.rect (to_kurbo_rect r rect)
  (clipRes.1,
    { r with
        top := { r.top with clip := clipRes.2, clip_layer_count := r.top.clip_layer_count + 1 },
        scene := r.scene ++ [SceneOp.pushLayer 1 ct clip_shape] })

/-- apply_opacity from the source: the current state alpha is multiplied by
the factor. -/
def apply_opacity (r : Renderer) (opacity : ℚ) : Renderer :=
  { r with top := { r.top with alpha := r.top.alpha * opacity } }

/-- save_state from the source: a clone of the current state with the clip
layer counter reset to zero is pushed on the stack and becomes current. -/
def save_state (r : Renderer) : Renderer :=
  { r with top := { r.top with clip_layer_count := 0 }, below := r.top :: r.below }

/-- restore_state from the source: nothing happens when only the bottom
frame is on the stack; otherwise the top frame is discarded and one vello
layer is popped for each clip layer the discarded frame had pushed. -/
def restore_state (r : Renderer) : Renderer :=
  match r.below with
  | [] => r
  | b :: bs =>
      { r with
          top := b, below := bs,
          scene := r.scene ++ List.replicate r.top.clip_layer_count SceneOp.popLayer }

/-- Error type of set_rendering_notifier. -/
inductive SetRenderingNotifierError
  | alreadySet
  deriving DecidableEq

/-- set_rendering_notifier from lib.rs. Callbacks are identified by an
abstract tag. The source calls replace on the option holding the current
notifier, which installs the new callback unconditionally and returns the
previous one; the error is reported when a previous one existed. The first
component is the notifier slot after the call, the second the returned
result. -/
def set_rendering_notifier (current : Option ℕ) (callback : ℕ) :
    Option ℕ × Except SetRenderingNotifierError Unit :=
  let replaced := current
  let slotAfter := some callback
  if replaced.isSome then (slotAfter, Except.error SetRenderingNotifierError.alreadySet)
  else (slotAfter, Except.ok ())

/-- Lifecycle points of the rendering notifier. -/
inductive NotifyPoint
  | renderingSetup
  | beforeRendering
  | afterRendering
  | renderingTeardown
  deriving DecidableEq

/-- Observable effects of one render call, in order of occurrence. -/
inductive RenderEffect
  | notified (p : NotifyPoint)
  | sceneReset
  | backgroundFill (c : SlintColor) (w h : ℕ)
  | itemTreeWalk
  | sceneSubmitted (w h : ℕ)
  deriving DecidableEq

/-- Errors a render call can surface. -/
inductive PlatformErr
  | notAssociatedWithWindow
  | graphicsApi
  | renderSceneFailed
  deriving DecidableEq

/-- Environment of one render call: whether this is the first frame, the
registered notifier, whether the weak window adapter still upgrades, the
window size, whether the graphics api callback path succeeds, the window
background brush, and whether scene submission succeeds. -/
structure RenderEnv where
  rendering_first_time : Bool
  notifier : Option ℕ
  adapterAlive : Bool
  windowW : ℕ
  windowH : ℕ
  graphicsApiOk : Bool
  backgroundBrush : Option SlintBrush
  renderSceneOk : Bool
  deriving DecidableEq

/-- Notification step shared by the three lifecycle points inside render:
nothing when no notifier is registered, an error when the graphics api
cannot be acquired, and a notified effect otherwise. -/
def notifyStep (env : RenderEnv) (p : NotifyPoint) :
    Except PlatformErr (List RenderEffect) :=
  if env.notifier.isSome then
    if env.graphicsApiOk then Except.ok [RenderEffect.notified p]
    else Except.error PlatformErr.graphicsApi
  else Except.ok []

/-- render from lib.rs, at the granularity of its observable effects. On
the first frame the setup notification fires; then the window adapter is
resolved (an error when it is gone); then the window size is read and a
zero width or height returns success immediately with nothing drawn.
Otherwise the scene is reset, cleared with the background when that is a
solid color, the before rendering notification fires, the item tree is
walked, the scene is submitted, and the after rendering notification
fires. -/
def render (env : RenderEnv) : Except PlatformErr (List RenderEffect) :=
  let setup :=
    if env.rendering_first_time then notifyStep env NotifyPoint.renderingSetup
    else Except.ok []
  match setup with
  | Except.error e => Except.error e
  | Except.ok effs0 =>
      if env.adapterAlive = false then Except.error PlatformErr.notAssociatedWithWindow
      else if env.windowW = 0 ∨ env.windowH = 0 then Except.ok effs0
      else
        let effs1 := effs0 ++ [RenderEffect.sceneReset]
        let effs2 := effs1 ++
          (match env.backgroundBrush with
           | some (SlintBrush.solidColor c) => [RenderEffect.backgroundFill c env.windowW env.windowH]
           | _ => [])
        match notifyStep env NotifyPoint.beforeRendering with
        | Except.error e => Except.error e
        | Except.ok effsB =>
            let effs3 := effs2 ++ effsB ++ [RenderEffect.itemTreeWalk]
            if env.renderSceneOk = false then Except.error PlatformErr.renderSceneFailed
            else
              let effs4 := effs3 ++ [RenderEffect.sceneSubmitted env.windowW env.windowH]
              match notifyStep env NotifyPoint.afterRendering with
              | Except.error e => Except.error e
              | Except.ok effsA => Except.ok (effs4 ++ effsA)

/-- Effects that draw or submit pixels; the zero size path must produce
none of these. -/
def RenderEffect.isDrawEffect : RenderEffect → Bool
  | RenderEffect.notified _ => false
  | RenderEffect.sceneReset => true
  | RenderEffect.backgroundFill _ _ _ => true
  | RenderEffect.itemTreeWalk => true
  | RenderEffect.sceneSubmitted _ _ => true

/-- Commands of the item renderer protocol exercised by the state stack
claims; each constructor carries the arguments of the corresponding
renderer operation. -/
inductive Cmd
  | saveState
  | restoreState
  | combineClip (rect : LogicalRect) (radius : LogicalBorderRadius) (bw : ℚ)
  | applyOpacity (factor : ℚ)
  | drawRect (background : SlintBrush) (size : LogicalSize)
  | drawBorderRect (background border_color : SlintBrush) (bw : ℚ)
      (radius : LogicalBorderRadius) (size : LogicalSize)
  | drawImage (env : ImageFitEnv) (img : ImageInner) (size : LogicalSize) (sw sh : ℕ)
  deriving DecidableEq

/-- One step of the item renderer on a command. -/
def stepCmd (c : Cmd) (r : Renderer) : Renderer :=
  match c with
  | Cmd.saveState => save_state r
  | Cmd.restoreState => restore_state r
  | Cmd.combineClip rect radius bw => (combine_clip r rect radius bw).2
  | Cmd.applyOpacity o => apply_opacity r o
  | Cmd.drawRect b s => draw_rectangle r b s
  | Cmd.drawBorderRect bg bc bw rad s => draw_border_rectangle r bg bc bw rad s
  | Cmd.drawImage env img s sw sh => draw_image r env img s sw sh

/-- Run of a command list, left to right. -/
def run (cs : List Cmd) (r : Renderer) : Renderer :=
  cs.foldl (fun acc c => stepCmd c acc) r

/-- Save depth after one command: saves push one level, restores pop one
level, every other command keeps the depth. -/
def cmdDepthChange (c : Cmd) (d : ℕ) : ℕ :=
  match c with
  | Cmd.saveState => d + 1
  | Cmd.restoreState => d - 1
  | _ => d

/-- Balance check of a command list relative to a save depth: restores
never outnumber the surrounding saves and the depth returns to the start.
A list that passes at depth zero is a well bracketed body between one
save and its matching restore. -/
def balAux : ℕ → List Cmd → Bool
  | d, [] => d == 0
  | d, c :: t =>
      if c = Cmd.restoreState ∧ d = 0 then false
      else balAux (cmdDepthChange c d) t

/-- Balanced command list: balance check at depth zero. -/
def balanced (cs : List Cmd) : Bool := balAux 0 cs

/-- Contribution of one command to the combine clip count of the frame at
relative depth zero: one for a combine clip executed at depth zero, zero
otherwise. -/
def tlcContrib (c : Cmd) (d : ℕ) : ℕ :=
  match c, d with
  | Cmd.combineClip _ _ _, 0 => 1
  | _, _ => 0

/-- Number of combine clip commands executed while the frame that was
current at the given relative depth is on top: combines inside nested
save restore brackets are not counted. -/
def tlcAux : ℕ → List Cmd → ℕ
  | _, [] => 0
  | d, c :: t => tlcContrib c d + tlcAux (cmdDepthChange c d) t

/-- Combine clip calls made at the top bracket level of a command list. -/
def topLevelCombines (cs : List Cmd) : ℕ := tlcAux 0 cs

/-- Contribution of one scene operation to the open layer count. -/
def layerDelta : SceneOp → ℤ
  | SceneOp.pushLayer _ _ _ => 1
  | SceneOp.popLayer => -1
  | SceneOp.fill _ _ _ _ => 0
  | SceneOp.stroke _ _ _ _ => 0

/-- Net number of open layers of a scene operation list. -/
def sceneNet (l : List SceneOp) : ℤ := (l.map layerDelta).sum

/-- Sum of the clip layer counters over the whole state stack. -/
def stackCounts (r : Renderer) : ℤ :=
  (r.top.clip_layer_count : ℤ) + (r.below.map (fun s => (s.clip_layer_count : ℤ))).sum

/-- Number of push layer operations in a scene operation list. -/
def countPushLayers (l : List SceneOp) : ℕ :=
  (l.filter (fun op => match op with | SceneOp.pushLayer _ _ _ => true | _ => false)).length

/-- Number of fill operations in a scene operation list. -/
def countFills (l : List SceneOp) : ℕ :=
  (l.filter (fun op => match op with | SceneOp.fill _ _ _ _ => true | _ => false)).length

/-- Clamp of a rational to the unit interval; used to formalise the claim
wording that the alpha is clamped before reaching a draw call. -/
def clamp01 (q : ℚ) : ℚ := max 0 (min 1 q)

/-- Specification side reading of the claim that the alpha is clamped to
the unit interval before it is used by a draw call: the color alpha is
multiplied by the clamped state alpha. -/
def spec_apply_alpha_clamped (c : PenikoColor) (alpha : ℚ) : PenikoColor :=
  ⟨c.r, c.g, c.b, f32ToU8Sat (c.a * clamp01 alpha)⟩

/-- Specification side reading of the claim that every brush variant gets
the state alpha multiplied in: solid colors and every gradient stop have
their alpha multiplied. -/
def spec_brush_alpha_multiplied (b : PenikoBrush) (alpha : ℚ) : PenikoBrush :=
  match b with
  | PenikoBrush.solid c => PenikoBrush.solid (apply_alpha c alpha)
  | PenikoBrush.linearGradient angle bounds stops =>
      PenikoBrush.linearGradient angle bounds
        (stops.map (fun s => ⟨s.offset, apply_alpha s.color alpha⟩))
  | PenikoBrush.radialGradient bounds stops =>
      PenikoBrush.radialGradient bounds
        (stops.map (fun s => ⟨s.offset, apply_alpha s.color alpha⟩))

/-- Specification side reading of the claimed inner stroke radius: the
outer radius minus half the stroke width, floored at the base radius when
that subtraction would go negative. -/
def spec_inner_stroke_radius (base bw : ℚ) : ℚ :=
  if base + bw / 2 - bw / 2 < 0 then base else base + bw / 2 - bw / 2

/-- Zero border radius record used by concrete instances. -/
def radZero : LogicalBorderRadius := ⟨0, 0, 0, 0⟩

/-- Concrete renderer over a 100 by 100 logical window at scale factor one,
as new builds it. -/
def testRenderer : Renderer := rendererNew [] [] ⟨100, 100⟩ 1 Affine.identity

/-- Concrete rectangle inside the test window. -/
def rect10 : LogicalRect := ⟨⟨0, 0⟩, ⟨10, 10⟩⟩

/-- Concrete rectangle inside the test window. -/
def rect4 : LogicalRect := ⟨⟨2, 2⟩, ⟨4, 4⟩⟩

/-- Concrete rectangle whose interior lies outside the test window. -/
def rectFar : LogicalRect := ⟨⟨200, 0⟩, ⟨10, 10⟩⟩

/-- Balanced command list used to instantiate the bracket claim. -/
def csWitness : List Cmd :=
  [Cmd.combineClip rect10 radZero 0, Cmd.saveState, Cmd.combineClip rect4 radZero 0,
   Cmd.restoreState, Cmd.applyOpacity (1 / 2), Cmd.combineClip rect10 radZero 0]

/-- Renderer whose bottom frame has a nonzero clip layer counter. -/
def bottomCountRenderer : Renderer :=
  { testRenderer with top := { testRenderer.top with clip_layer_count := 2 } }

/-- Renderer whose current clip has already collapsed to the empty
rectangle. -/
def emptyClipRenderer : Renderer :=
  { testRenderer with top := { testRenderer.top with clip := LogicalRect.zeroRect } }

/-- Background shape of the fully covering border branch of
draw_border_rectangle: the rectangle inset by the border width on all
sides, rounded with the stroke radius. -/
def insetBorderShape (r : Renderer) (tl w h bw : ℚ) : KShape :=
  roundedRectFromRect (to_kurbo_rect r ⟨⟨bw, bw⟩, ⟨w - 2 * bw, h - 2 * bw⟩⟩)
    (to_physical r (borderStrokeRadius tl w h bw))

/-- Render environment with a zero width window, a live adapter and a
registered notifier on the first frame. -/
def zeroSizeEnv : RenderEnv :=
  { rendering_first_time := true
    notifier := some 7
    adapterAlive := true
    windowW := 0
    windowH := 120
    graphicsApiOk := true
    backgroundBrush := none
    renderSceneOk := true }

/-- Concrete static texture of one pixel. -/
def stData : StaticTexturesData := ⟨[1, 2, 3, 4], 1, 1⟩

/-- Trivial image fit environment for concrete draw_image instances. -/
def imgEnvTrivial : ImageFitEnv :=
  { fitResult := ⟨⟨0, 0, 1, 1⟩, 1, 1, 1, 1, 0, 0⟩
    sourceClip := none
    nineSliceFits := []
    svgRendered := none
    wgpuReaderResult := none }

/-- Concrete one pixel RGBA source buffer. -/
def bufA : SharedImageBuffer := SharedImageBuffer.rgba8 42 1 1 [⟨1, 2, 3, 4⟩]

/-! Helper lemmas shared by several claims. -/

theorem run_nil (r : Renderer) : run [] r = r := rfl

theorem run_cons (c : Cmd) (t : List Cmd) (r : Renderer) :
    run (c :: t) r = run t (stepCmd c r) := rfl

theorem run_append (a b : List Cmd) (r : Renderer) :
    run (a ++ b) r = run b (run a r) := by
  simp [run, List.foldl_append]

theorem sceneNet_append (a b : List SceneOp) :
    sceneNet (a ++ b) = sceneNet a + sceneNet b := by
  simp [sceneNet]

theorem sceneNet_replicate_pop (n : ℕ) :
    sceneNet (List.replicate n SceneOp.popLayer) = -(n : ℤ) := by
  induction n with
  | zero => simp [sceneNet]
  | succ k ih =>
      rw [List.replicate_succ]
      simp only [sceneNet, List.map_cons, List.sum_cons] at ih ⊢
      rw [ih]
      simp only [layerDelta]
      push_cast
      ring

theorem get_or_create_below (r : Renderer) (b : SharedImageBuffer) :
    ((get_or_create_image_data r b).2).below = r.below := by
  unfold get_or_create_image_data
  split <;> rfl

theorem get_or_create_top (r : Renderer) (b : SharedImageBuffer) :
    ((get_or_create_image_data r b).2).top = r.top := by
  unfold get_or_create_image_data
  split <;> rfl

theorem get_or_create_scene (r : Renderer) (b : SharedImageBuffer) :
    ((get_or_create_image_data r b).2).scene = r.scene := by
  unfold get_or_create_image_data
  split <;> rfl

theorem get_or_create_scale (r : Renderer) (b : SharedImageBuffer) :
    ((get_or_create_image_data r b).2).scale_factor = r.scale_factor := by
  unfold get_or_create_image_data
  split <;> rfl

theorem draw_border_rectangle_below (r : Renderer) (bg bc : SlintBrush) (bw : ℚ)
    (rad : LogicalBorderRadius) (s : LogicalSize) :
    (draw_border_rectangle r bg bc bw rad s).below = r.below := by
  unfold draw_border_rectangle
  split <;> rfl

theorem draw_border_rectangle_top (r : Renderer) (bg bc : SlintBrush) (bw : ℚ)
    (rad : LogicalBorderRadius) (s : LogicalSize) :
    (draw_border_rectangle r bg bc bw rad s).top = r.top := by
  unfold draw_border_rectangle
  split <;> rfl

theorem draw_image_below (r : Renderer) (env : ImageFitEnv) (img : ImageInner)
    (size : LogicalSize) (sw sh : ℕ) :
    (draw_image r env img size sw sh).below = r.below := by
  unfold draw_image
  split
  · rfl
  split
  · rfl
  cases img
  · simp [get_or_create_below]
  · rfl
  · rfl
  · rfl
  · rename_i innerBuffer borders
    cases innerBuffer
    · rfl
    · simp [get_or_create_below]
  · cases env.svgRendered
    · rfl
    · rfl
  · rcases env.wgpuReaderResult with _ | (_ | ⟨w, h, bytes⟩) <;> rfl
  · rfl

theorem draw_image_top (r : Renderer) (env : ImageFitEnv) (img : ImageInner)
    (size : LogicalSize) (sw sh : ℕ) :
    (draw_image r env img size sw sh).top = r.top := by
  unfold draw_image
  split
  · rfl
  split
  · rfl
  cases img
  · simp [get_or_create_top]
  · rfl
  · rfl
  · rfl
  · rename_i innerBuffer borders
    cases innerBuffer
    · rfl
    · simp [get_or_create_top]
  · cases env.svgRendered
    · rfl
    · rfl
  · rcases env.wgpuReaderResult with _ | (_ | ⟨w, h, bytes⟩) <;> rfl
  · rfl

theorem embeddedImageOps_net (r : Renderer) (data : List ℕ) (premult : Bool) (w h : ℕ)
    (fr : FitResult) (sclip : IntRect) :
    sceneNet (embeddedImageOps r data premult w h fr sclip) = 0 := by
  simp [embeddedImageOps, sceneNet, layerDelta]

theorem nineSliceFitOps_net (r : Renderer) (data : List ℕ) (premult : Bool) (w h : ℕ)
    (fit : FitResult) :
    sceneNet (nineSliceFitOps r data premult w h fit) = 0 := by
  unfold nineSliceFitOps
  split
  · simp [sceneNet]
  · simp [sceneNet, layerDelta]

theorem nineSliceFlatMap_net (r : Renderer) (data : List ℕ) (premult : Bool) (w h : ℕ)
    (fits : List FitResult) :
    sceneNet (fits.flatMap (nineSliceFitOps r data premult w h)) = 0 := by
  induction fits with
  | nil => simp [sceneNet]
  | cons f t ih => simp [List.flatMap_cons, sceneNet_append, nineSliceFitOps_net, ih]

theorem draw_image_scene_net (r : Renderer) (env : ImageFitEnv) (img : ImageInner)
    (size : LogicalSize) (sw sh : ℕ) :
    sceneNet (draw_image r env img size sw sh).scene = sceneNet r.scene := by
  unfold draw_image
  split
  · rfl
  split
  · rfl
  cases img
  · simp [sceneNet_append, embeddedImageOps_net, get_or_create_scene]
  · simp [sceneNet_append, sceneNet, layerDelta]
  · rfl
  · rfl
  · rename_i innerBuffer borders
    cases innerBuffer
    · rfl
    · simp [sceneNet_append, nineSliceFlatMap_net, get_or_create_scene]
  · cases env.svgRendered
    · rfl
    · simp [sceneNet_append, sceneNet, layerDelta]
  · rcases env.wgpuReaderResult with _ | (_ | ⟨w, h, bytes⟩)
    · rfl
    · rfl
    · simp [sceneNet_append, sceneNet, layerDelta]
  · rfl

theorem draw_border_rectangle_scene_net (r : Renderer) (bg bc : SlintBrush) (bw : ℚ)
    (rad : LogicalBorderRadius) (s : LogicalSize) :
    sceneNet (draw_border_rectangle r bg bc bw rad s).scene = sceneNet r.scene := by
  unfold draw_border_rectangle
  split
  · rfl
  · by_cases hf : bc.is_full_alpha = true <;>
      by_cases hs2 : bc.is_transparent = false ∧
          0 < (if bc.is_transparent = true then (0 : ℚ) else bw) <;>
        simp [hf, hs2, sceneNet_append, sceneNet, layerDelta] <;>
          (try (split <;> simp [layerDelta]))

theorem stackCounts_congr (r r2 : Renderer)
    (h1 : r2.top.clip_layer_count = r.top.clip_layer_count) (h2 : r2.below = r.below) :
    stackCounts r2 = stackCounts r := by
  simp [stackCounts, h1, h2]

theorem stepCmd_invariant (c : Cmd) (r : Renderer) :
    sceneNet (stepCmd c r).scene - stackCounts (stepCmd c r)
      = sceneNet r.scene - stackCounts r := by
  cases c with
  | saveState =>
      simp [stepCmd, save_state, stackCounts]
      try ring
  | restoreState =>
      cases hb : r.below with
      | nil => simp [stepCmd, restore_state, hb]
      | cons b bs =>
          simp [stepCmd, restore_state, hb, stackCounts, sceneNet_append,
            sceneNet_replicate_pop]
          try ring
  | combineClip rect radius bw =>
      simp [stepCmd, combine_clip, stackCounts, sceneNet_append, sceneNet, layerDelta]
      try ring
  | applyOpacity o => simp [stepCmd, apply_opacity, stackCounts]
  | drawRect b s =>
      simp [stepCmd, draw_rectangle, stackCounts, sceneNet_append, sceneNet, layerDelta]
  | drawBorderRect bg bc bw rad s =>
      have hn := draw_border_rectangle_scene_net r bg bc bw rad s
      have hs := stackCounts_congr r (draw_border_rectangle r bg bc bw rad s)
        (by rw [draw_border_rectangle_top]) (draw_border_rectangle_below r bg bc bw rad s)
      simp [stepCmd, hn, hs]
  | drawImage env img s sw sh =>
      have hn := draw_image_scene_net r env img s sw sh
      have hs := stackCounts_congr r (draw_image r env img s sw sh)
        (by rw [draw_image_top]) (draw_image_below r env img s sw sh)
      simp [stepCmd, hn, hs]

theorem run_invariant (cs : List Cmd) (r : Renderer) :
    sceneNet (run cs r).scene - stackCounts (run cs r)
      = sceneNet r.scene - stackCounts r := by
  induction cs generalizing r with
  | nil => rfl
  | cons c t ih =>
      rw [run_cons, ih (stepCmd c r)]
      exact stepCmd_invariant c r

theorem getLastD_count_congr (l : List RenderState) (x y : RenderState)
    (h : x.clip_layer_count = y.clip_layer_count) :
    (l.getLastD x).clip_layer_count = (l.getLastD y).clip_layer_count := by
  cases l with
  | nil => simpa [List.getLastD]
  | cons a t =>
      simp only [List.getLastD_eq_getLast?]
      cases (a :: t).getLast? <;> simp [h]

theorem run_balanced_shape (cs : List Cmd) :
    ∀ (d : ℕ) (r : Renderer) (extra rest : List RenderState),
      balAux d cs = true → r.below = extra ++ rest → extra.length = d →
      (run cs r).below = rest ∧
      (run cs r).top.clip_layer_count
        = (extra.getLastD r.top).clip_layer_count + tlcAux d cs := by
  induction cs with
  | nil =>
      intro d r extra rest hb hbe hl
      have hd : d = 0 := by simpa [balAux] using hb
      subst hd
      have hextra : extra = [] := List.eq_nil_of_length_eq_zero hl
      subst hextra
      refine ⟨by simpa using hbe, ?_⟩
      simp [run_nil, tlcAux, List.getLastD]
  | cons c t ih =>
      intro d r extra rest hb hbe hl
      rw [run_cons]
      cases c with
      | saveState =>
          have hb2 : balAux (d + 1) t = true := by
            simpa [balAux, cmdDepthChange] using hb
          have key := ih (d + 1) (stepCmd Cmd.saveState r) (r.top :: extra) rest hb2
            (by simp [stepCmd, save_state, hbe]) (by simp [hl])
          rcases key with ⟨k1, k2⟩
          refine ⟨k1, ?_⟩
          rw [k2]
          rw [List.getLastD_cons]
          simp [tlcAux, tlcContrib, cmdDepthChange]
      | restoreState =>
          cases d with
          | zero => simp [balAux] at hb
          | succ d2 =>
              have hb2 : balAux d2 t = true := by
                simpa [balAux, cmdDepthChange] using hb
              cases extra with
              | nil => simp at hl
              | cons e es =>
                  have hl2 : es.length = d2 := by simpa using hl
                  have hbe2 : r.below = e :: (es ++ rest) := by simpa using hbe
                  have hre : stepCmd Cmd.restoreState r =
                      { r with
                        top := e
                        below := es ++ rest
                        scene := r.scene ++
                          List.replicate r.top.clip_layer_count SceneOp.popLayer } := by
                    simp only [stepCmd]
                    unfold restore_state
                    rw [hbe2]
                  rw [hre]
                  have key := ih d2
                    { r with
                      top := e
                      below := es ++ rest
                      scene := r.scene ++
                        List.replicate r.top.clip_layer_count SceneOp.popLayer }
                    es rest hb2 (by simp) hl2
                  rcases key with ⟨k1, k2⟩
                  refine ⟨k1, ?_⟩
                  rw [k2]
                  have hgl : (e :: es).getLastD r.top = es.getLastD e :=
                    List.getLastD_cons r.top e es
                  rw [hgl]
                  simp [tlcAux, tlcContrib, cmdDepthChange]
      | combineClip rect radius bw =>
          have hb2 : balAux d t = true := by
            simpa [balAux, cmdDepthChange] using hb
          have key := ih d (stepCmd (Cmd.combineClip rect radius bw) r) extra rest hb2
            (by simp [stepCmd, combine_clip, hbe]) hl
          rcases key with ⟨k1, k2⟩
          refine ⟨k1, ?_⟩
          rw [k2]
          have htop : (stepCmd (Cmd.combineClip rect radius bw) r).top.clip_layer_count
              = r.top.clip_layer_count + 1 := by simp [stepCmd, combine_clip]
          cases extra with
          | nil =>
              have hd : d = 0 := by simpa using hl.symm
              subst hd
              simp only [List.getLastD]
              rw [htop]
              simp [tlcAux, tlcContrib, cmdDepthChange]
              omega
          | cons e es =>
              have hd : d = es.length + 1 := by simpa using hl.symm
              subst hd
              have hgl1 : (e :: es).getLastD (stepCmd (Cmd.combineClip rect radius bw) r).top
                  = es.getLastD e :=
                List.getLastD_cons _ e es
              have hgl2 : (e :: es).getLastD r.top = es.getLastD e :=
                List.getLastD_cons r.top e es
              rw [hgl1, hgl2]
              simp [tlcAux, tlcContrib, cmdDepthChange]
      | applyOpacity o =>
          have hb2 : balAux d t = true := by
            simpa [balAux, cmdDepthChange] using hb
          have key := ih d (stepCmd (Cmd.applyOpacity o) r) extra rest hb2
            (by simp [stepCmd, apply_opacity, hbe]) hl
          rcases key with ⟨k1, k2⟩
          refine ⟨k1, ?_⟩
          rw [k2, getLastD_count_congr extra _ r.top (by simp [stepCmd, apply_opacity])]
          simp [tlcAux, tlcContrib, cmdDepthChange]
      | drawRect b s =>
          have hb2 : balAux d t = true := by
            simpa [balAux, cmdDepthChange] using hb
          have key := ih d (stepCmd (Cmd.drawRect b s) r) extra rest hb2
            (by simp [stepCmd, draw_rectangle, hbe]) hl
          rcases key with ⟨k1, k2⟩
          refine ⟨k1, ?_⟩
          rw [k2, getLastD_count_congr extra _ r.top (by simp [stepCmd, draw_rectangle])]
          simp [tlcAux, tlcContrib, cmdDepthChange]
      | drawBorderRect bg bc bw rad s =>
          have hb2 : balAux d t = true := by
            simpa [balAux, cmdDepthChange] using hb
          have key := ih d (stepCmd (Cmd.drawBorderRect bg bc bw rad s) r) extra rest hb2
            (by simp only [stepCmd]; rw [draw_border_rectangle_below]; exact hbe) hl
          rcases key with ⟨k1, k2⟩
          refine ⟨k1, ?_⟩
          rw [k2, getLastD_count_congr extra _ r.top
            (by simp only [stepCmd]; rw [draw_border_rectangle_top])]
          simp [tlcAux, tlcContrib, cmdDepthChange]
      | drawImage env img s sw sh =>
          have hb2 : balAux d t = true := by
            simpa [balAux, cmdDepthChange] using hb
          have key := ih d (stepCmd (Cmd.drawImage env img s sw sh) r) extra rest hb2
            (by simp only [stepCmd]; rw [draw_image_below]; exact hbe) hl
          rcases key with ⟨k1, k2⟩
          refine ⟨k1, ?_⟩
          rw [k2, getLastD_count_congr extra _ r.top
            (by simp only [stepCmd]; rw [draw_image_top])]
          simp [tlcAux, tlcContrib, cmdDepthChange]

theorem intersection_eq_none_iff (s o : LogicalRect) :
    s.intersection o = none ↔ s.interiorsDisjoint o := by
  simp only [LogicalRect.intersection, LogicalRect.interiorsDisjoint]
  by_cases hc : max s.origin.x o.origin.x < min s.maxX o.maxX ∧
      max s.origin.y o.origin.y < min s.maxY o.maxY
  · rw [if_pos hc]
    constructor
    · intro h
      exact absurd h (by simp)
    · intro h
      rcases h with h | h
      · exact absurd hc.1 (not_lt.mpr h)
      · exact absurd hc.2 (not_lt.mpr h)
  · rw [if_neg hc]
    constructor
    · intro _
      rcases not_and_or.mp hc with h | h
      · exact Or.inl (not_lt.mp h)
      · exact Or.inr (not_lt.mp h)
    · intro _
      rfl

theorem zeroRect_intersection (o : LogicalRect) :
    LogicalRect.zeroRect.intersection o = none := by
  rw [intersection_eq_none_iff]
  left
  refine le_trans (min_le_left _ _) ?_
  simp [LogicalRect.zeroRect, LogicalRect.maxX]

/-- C1: save_state pushes a clone of the current state whose clip layer
counter is reset to zero; running any balanced body from there leaves a
counter equal to the combine clip calls made at that bracket level, so the
matching restore_state pops exactly that many layers from the scene,
restores the state stack of the save point, and the whole bracket leaves
the net clip layer count of the scene unchanged. -/
theorem c1_save_restore_clip_layer_discipline (cs : List Cmd) (r : Renderer)
    (h : balanced cs = true) :
    save_state r = { r with
        top := { r.top with clip_layer_count := 0 }
        below := r.top :: r.below } ∧
    (run cs (save_state r)).top.clip_layer_count = topLevelCombines cs ∧
    run (Cmd.saveState :: (cs ++ [Cmd.restoreState])) r = { run cs (save_state r) with
        top := r.top
        below := r.below
        scene := (run cs (save_state r)).scene ++
          List.replicate (topLevelCombines cs) SceneOp.popLayer } ∧
    sceneNet (run (Cmd.saveState :: (cs ++ [Cmd.restoreState])) r).scene
      = sceneNet r.scene := by
  have hshape := run_balanced_shape cs 0 (save_state r) [] (r.top :: r.below) h
    (by simp [save_state]) (by simp)
  rcases hshape with ⟨hbel, hcnt⟩
  have hcnt2 : (run cs (save_state r)).top.clip_layer_count = topLevelCombines cs := by
    rw [hcnt]
    simp [save_state, topLevelCombines, List.getLastD]
  have hpos : run (Cmd.saveState :: (cs ++ [Cmd.restoreState])) r
      = restore_state (run cs (save_state r)) := by
    rw [run_cons, show stepCmd Cmd.saveState r = save_state r from rfl, run_append]
    rfl
  have hres : restore_state (run cs (save_state r)) = { run cs (save_state r) with
      top := r.top
      below := r.below
      scene := (run cs (save_state r)).scene ++
        List.replicate (topLevelCombines cs) SceneOp.popLayer } := by
    unfold restore_state
    rw [hbel, hcnt2]
  refine ⟨rfl, hcnt2, by rw [hpos, hres], ?_⟩
  have hinv := run_invariant cs (save_state r)
  have hsave_counts : stackCounts (save_state r) = stackCounts r := by
    simp [save_state, stackCounts]
  have hsave_scene : (save_state r).scene = r.scene := rfl
  have hbody_counts : stackCounts (run cs (save_state r))
      = (topLevelCombines cs : ℤ) + stackCounts r := by
    simp only [stackCounts, hbel, hcnt2, List.map_cons, List.sum_cons]
    try push_cast
    try ring
  have hbody_scene : sceneNet (run cs (save_state r)).scene
      = sceneNet r.scene + (topLevelCombines cs : ℤ) := by
    rw [hsave_scene, hsave_counts, hbody_counts] at hinv
    linarith
  rw [hpos, hres]
  simp only [sceneNet_append, sceneNet_replicate_pop]
  rw [hbody_scene]
  ring

/-- C9: restore_state with only the bottom frame on the stack is a
complete no-op: the frame is kept and no layers are popped, whatever the
clip layer counter of the bottom frame holds. -/
theorem c9_restore_state_bottom_frame (r : Renderer) (h : r.below = []) :
    restore_state r = r := by
  unfold restore_state
  rw [h]

theorem c9_witness :
    bottomCountRenderer.top.clip_layer_count = 2 ∧
    bottomCountRenderer.below = [] ∧
    restore_state bottomCountRenderer = bottomCountRenderer :=
  ⟨rfl, rfl, c9_restore_state_bottom_frame bottomCountRenderer rfl⟩

/-- C2 counterexample: registering callback one while callback zero is
registered returns the already set error, yet afterwards the slot holds
the new callback and no longer the previous one. -/
theorem c2_counterexample :
    (set_rendering_notifier (some 0) 1).2
        = Except.error SetRenderingNotifierError.alreadySet ∧
    (set_rendering_notifier (some 0) 1).1 = some 1 ∧
    (some 1 : Option ℕ) ≠ some 0 := by
  refine ⟨rfl, rfl, by decide⟩

/-- C2 (amended): a second registration attempt returns the already set
error but installs the new callback in place of the previous one; a first
registration succeeds and installs the callback. -/
theorem c2_set_rendering_notifier_replaces (prev cb : ℕ) :
    set_rendering_notifier (some prev) cb
        = (some cb, Except.error SetRenderingNotifierError.alreadySet) ∧
    set_rendering_notifier none cb = (some cb, Except.ok ()) :=
  ⟨rfl, rfl⟩

/-- C3 counterexample: after apply_opacity with factor two, drawing a solid
color of alpha 100 emits a fill whose alpha byte is 200, whereas clamping
the state alpha to the unit interval before the draw would give 100. -/
theorem c3_counterexample :
    (draw_rectangle (apply_opacity testRenderer 2)
        (SlintBrush.solidColor ⟨255, 255, 255, 100⟩) ⟨50, 50⟩).scene
      = [SceneOp.fill FillStyle.nonZero Affine.identity
          (ScenePaint.brush (PenikoBrush.solid ⟨255, 255, 255, 200⟩))
          (KShape.rect ⟨0, 0, 50, 50⟩)] ∧
    spec_apply_alpha_clamped ⟨255, 255, 255, 100⟩ 2 = ⟨255, 255, 255, 100⟩ ∧
    (200 : ℕ) ≠ 100 := by
  refine ⟨?_, ?_, by decide⟩
  · norm_num [draw_rectangle, testRenderer, rendererNew, apply_opacity, to_kurbo_rect,
      to_physical, current_transform, applySceneAlpha, brush_to_peniko_brush_owned,
      to_peniko_color, apply_alpha, f32ToU8Sat]
    decide
  · norm_num [spec_apply_alpha_clamped, clamp01, f32ToU8Sat]
    decide

/-- C3 (amended): two nested apply_opacity calls multiply both factors
into the state alpha, which starts at one on a fresh renderer, so the
effective alpha is the product; at a draw call the alpha byte of a solid
color is the saturating u8 cast of the color alpha times the state alpha,
hence always at most 255, but the state alpha itself is not clamped to the
unit interval. -/
theorem c3_apply_opacity_product (r : Renderer) (a b : ℚ) :
    (apply_opacity (apply_opacity r a) b).top.alpha = r.top.alpha * (a * b) ∧
    testRenderer.top.alpha = 1 ∧
    (∀ (c : PenikoColor) (al : ℚ), (apply_alpha c al).a ≤ 255) := by
  refine ⟨?_, rfl, ?_⟩
  · simp [apply_opacity]
    ring
  · intro c al
    simp only [apply_alpha, f32ToU8Sat]
    split
    · omega
    · exact min_le_left _ _

/-- C4: combine_clip with a rectangle whose interior is disjoint from the
current clip collapses the clip to the empty default rectangle and
returns false; once the clip is the empty rectangle every further
combine_clip with any rectangle keeps it empty and returns false; and
every combine_clip call, whatever its outcome, appends exactly one push
layer operation to the scene and increments the clip layer counter of the
current state by exactly one. -/
theorem c4_combine_clip (r : Renderer) (rect : LogicalRect)
    (radius : LogicalBorderRadius) (bw : ℚ) :
    (r.top.clip.interiorsDisjoint rect →
      (combine_clip r rect radius bw).1 = false ∧
      ((combine_clip r rect radius bw).2).top.clip = LogicalRect.zeroRect) ∧
    (r.top.clip = LogicalRect.zeroRect →
      (combine_clip r rect radius bw).1 = false ∧
      ((combine_clip r rect radius bw).2).top.clip = LogicalRect.zeroRect) ∧
    (∃ shape, ((combine_clip r rect radius bw).2).scene
        = r.scene ++ [SceneOp.pushLayer 1 (current_transform r) shape]) ∧
    ((combine_clip r rect radius bw).2).top.clip_layer_count
        = r.top.clip_layer_count + 1 := by
  refine ⟨?_, ?_, ⟨_, rfl⟩, rfl⟩
  · intro hdis
    have hnone : r.top.clip.intersection rect = none :=
      (intersection_eq_none_iff _ _).mpr hdis
    unfold combine_clip
    rw [hnone]
    exact ⟨rfl, rfl⟩
  · intro hclip
    have hnone : r.top.clip.intersection rect = none := by
      rw [hclip]
      exact zeroRect_intersection rect
    unfold combine_clip
    rw [hnone]
    exact ⟨rfl, rfl⟩

theorem c4_witness :
    ((combine_clip testRenderer rectFar radZero 0).1 = false ∧
      ((combine_clip testRenderer rectFar radZero 0).2).top.clip = LogicalRect.zeroRect) ∧
    ((combine_clip emptyClipRenderer rect10 radZero 0).1 = false ∧
      ((combine_clip emptyClipRenderer rect10 radZero 0).2).top.clip
        = LogicalRect.zeroRect) :=
  ⟨(c4_combine_clip testRenderer rectFar radZero 0).1
      (by norm_num [testRenderer, rendererNew, rectFar, LogicalRect.interiorsDisjoint,
        LogicalRect.maxX, LogicalRect.maxY]),
   (c4_combine_clip emptyClipRenderer rect10 radZero 0).2.1 rfl⟩

theorem c1_witness :
    balanced csWitness = true ∧
    (run csWitness (save_state testRenderer)).top.clip_layer_count
      = topLevelCombines csWitness :=
  ⟨by decide,
   (c1_save_restore_clip_layer_discipline csWitness testRenderer (by decide)).2.1⟩

/-- C7 (amended): draw_rectangle fills exactly one rectangle of the given
size at the local origin under the current transform; for a solid color
brush the state alpha is multiplied into the brush alpha, while linear and
radial gradient brushes are emitted unchanged, without the state alpha
applied. -/
theorem c7_draw_rectangle_brush_handling (r : Renderer) (size : LogicalSize) :
    (∀ c : SlintColor, (draw_rectangle r (SlintBrush.solidColor c) size).scene
        = r.scene ++ [SceneOp.fill FillStyle.nonZero (current_transform r)
            (ScenePaint.brush (PenikoBrush.solid
              (apply_alpha (to_peniko_color c) r.top.alpha)))
            (KShape.rect (to_kurbo_rect r ⟨⟨0, 0⟩, size⟩))]) ∧
    (∀ (angle : ℚ) (stops : List GradientStop),
      (draw_rectangle r (SlintBrush.linearGradient angle stops) size).scene
        = r.scene ++ [SceneOp.fill FillStyle.nonZero (current_transform r)
            (ScenePaint.brush (PenikoBrush.linearGradient angle
              (to_kurbo_rect r ⟨⟨0, 0⟩, size⟩) (convert_color_stops stops)))
            (KShape.rect (to_kurbo_rect r ⟨⟨0, 0⟩, size⟩))]) ∧
    (∀ stops : List GradientStop,
      (draw_rectangle r (SlintBrush.radialGradient stops) size).scene
        = r.scene ++ [SceneOp.fill FillStyle.nonZero (current_transform r)
            (ScenePaint.brush (PenikoBrush.radialGradient
              (to_kurbo_rect r ⟨⟨0, 0⟩, size⟩) (convert_color_stops stops)))
            (KShape.rect (to_kurbo_rect r ⟨⟨0, 0⟩, size⟩))]) := by
  refine ⟨fun c => ?_, fun angle stops => ?_, fun stops => ?_⟩ <;>
    simp [draw_rectangle, applySceneAlpha, brush_to_peniko_brush_owned]

/-- C7 counterexample: with state alpha one half, drawing a radial
gradient with a fully covering stop emits exactly the same fill as with
state alpha one, and that emitted gradient differs from the brush the
claim prescribes, whose stop alpha would be 127: the state alpha is not
multiplied into gradient brushes. -/
theorem c7_counterexample :
    (draw_rectangle (apply_opacity testRenderer (1 / 2))
        (SlintBrush.radialGradient [⟨⟨255, 0, 0, 255⟩, 0⟩]) ⟨50, 50⟩).scene
      = (draw_rectangle testRenderer
          (SlintBrush.radialGradient [⟨⟨255, 0, 0, 255⟩, 0⟩]) ⟨50, 50⟩).scene ∧
    (draw_rectangle (apply_opacity testRenderer (1 / 2))
        (SlintBrush.radialGradient [⟨⟨255, 0, 0, 255⟩, 0⟩]) ⟨50, 50⟩).scene
      = [SceneOp.fill FillStyle.nonZero Affine.identity
          (ScenePaint.brush (PenikoBrush.radialGradient ⟨0, 0, 50, 50⟩
            [⟨0, ⟨255, 0, 0, 255⟩⟩])) (KShape.rect ⟨0, 0, 50, 50⟩)] ∧
    spec_brush_alpha_multiplied
        (PenikoBrush.radialGradient ⟨0, 0, 50, 50⟩ [⟨0, ⟨255, 0, 0, 255⟩⟩]) (1 / 2)
      = PenikoBrush.radialGradient ⟨0, 0, 50, 50⟩ [⟨0, ⟨255, 0, 0, 127⟩⟩] ∧
    PenikoBrush.radialGradient (⟨0, 0, 50, 50⟩ : KRect)
        ([⟨0, ⟨255, 0, 0, 255⟩⟩] : List PenikoColorStop)
      ≠ PenikoBrush.radialGradient ⟨0, 0, 50, 50⟩ [⟨0, ⟨255, 0, 0, 127⟩⟩] := by
  refine ⟨?_, ?_, ?_, ?_⟩
  · norm_num [draw_rectangle, testRenderer, rendererNew, apply_opacity, to_kurbo_rect,
      to_physical, current_transform, applySceneAlpha, brush_to_peniko_brush_owned,
      convert_color_stops, to_peniko_color]
  · norm_num [draw_rectangle, testRenderer, rendererNew, apply_opacity, to_kurbo_rect,
      to_physical, current_transform, applySceneAlpha, brush_to_peniko_brush_owned,
      convert_color_stops, to_peniko_color]
  · norm_num [spec_brush_alpha_multiplied, apply_alpha, f32ToU8Sat]
    decide
  · simp

/-- C8: when the window adapter is alive and the first frame setup
notification can run, a zero window width or height makes render return
success immediately: at most the setup notification is emitted, and no
scene reset, background fill, item tree walk or scene submission takes
place. -/
theorem c8_render_zero_size_skips (env : RenderEnv)
    (hA : env.adapterAlive = true)
    (hz : env.windowW = 0 ∨ env.windowH = 0)
    (hsetup : env.rendering_first_time = true → env.notifier.isSome = true →
      env.graphicsApiOk = true) :
    ∃ effs, render env = Except.ok effs ∧
      effs.all (fun e => !e.isDrawEffect) = true := by
  have hren : render env = Except.ok
      (if env.rendering_first_time && env.notifier.isSome
       then [RenderEffect.notified NotifyPoint.renderingSetup] else []) := by
    unfold render notifyStep
    cases hft : env.rendering_first_time with
    | false =>
        rcases hz with hz | hz <;> simp [hft, hA, hz]
    | true =>
        cases hnot : env.notifier with
        | none =>
            rcases hz with hz | hz <;> simp [hft, hnot, hA, hz]
        | some n =>
            have hg : env.graphicsApiOk = true := hsetup hft (by rw [hnot]; rfl)
            rcases hz with hz | hz <;> simp [hft, hnot, hg, hA, hz]
  refine ⟨_, hren, ?_⟩
  cases env.rendering_first_time && env.notifier.isSome <;>
    simp [RenderEffect.isDrawEffect]

theorem c8_witness :
    ∃ effs, render zeroSizeEnv = Except.ok effs ∧
      effs.all (fun e => !e.isDrawEffect) = true :=
  c8_render_zero_size_skips zeroSizeEnv rfl (Or.inl rfl) (fun _ _ => rfl)

theorem borderFillRadius_zero_bw (tl w h : ℚ) :
    borderFillRadius tl w h 0 = borderBaseRadius tl w h := by
  unfold borderFillRadius
  norm_num

theorem borderStrokeRadius_zero_bw (tl w h : ℚ) :
    borderStrokeRadius tl w h 0 = borderBaseRadius tl w h := by
  unfold borderStrokeRadius borderFillRadius
  norm_num

theorem borderBaseRadius_nonneg (tl w h : ℚ) (htl : 0 ≤ tl) (hw : 0 ≤ w) (hh : 0 ≤ h) :
    0 ≤ borderBaseRadius tl w h := by
  unfold borderBaseRadius
  simp only [le_min_iff]
  refine ⟨⟨htl, by linarith⟩, by linarith⟩

theorem borderBaseRadius_le_half_w (tl w h : ℚ) : borderBaseRadius tl w h ≤ w / 2 :=
  le_trans (min_le_left _ _) (min_le_right _ _)

theorem borderBaseRadius_le_half_h (tl w h : ℚ) : borderBaseRadius tl w h ≤ h / 2 :=
  min_le_right _ _

theorem roundedRect_physical_eval (r : Renderer) (w h rad : ℚ) (hw : 0 ≤ w) (hh : 0 ≤ h)
    (hsf : 0 ≤ r.scale_factor) (hrad0 : 0 ≤ rad) (hrw : rad ≤ w / 2) (hrh : rad ≤ h / 2) :
    roundedRectFromRect (to_kurbo_rect r ⟨⟨0, 0⟩, ⟨w, h⟩⟩) (to_physical r rad)
      = KShape.roundedRect (to_kurbo_rect r ⟨⟨0, 0⟩, ⟨w, h⟩⟩) (to_physical r rad) := by
  unfold roundedRectFromRect KRect.absRect KRect.width KRect.height to_kurbo_rect to_physical
  simp only []
  have hws : (0 : ℚ) * r.scale_factor ≤ (0 + w) * r.scale_factor := by nlinarith
  have hhs : (0 : ℚ) * r.scale_factor ≤ (0 + h) * r.scale_factor := by nlinarith
  rw [min_eq_left hws, max_eq_right hws, min_eq_left hhs, max_eq_right hhs]
  have habs : |rad * r.scale_factor| = rad * r.scale_factor :=
    abs_of_nonneg (mul_nonneg hrad0 hsf)
  rw [habs]
  have hmin : rad * r.scale_factor
      ≤ min ((0 + w) * r.scale_factor - 0 * r.scale_factor)
          ((0 + h) * r.scale_factor - 0 * r.scale_factor) / 2 := by
    rw [le_div_iff₀ (by norm_num : (0 : ℚ) < 2)]
    refine le_min ?_ ?_
    · nlinarith [mul_nonneg (by linarith : (0 : ℚ) ≤ w / 2 - rad) hsf]
    · nlinarith [mul_nonneg (by linarith : (0 : ℚ) ≤ h / 2 - rad) hsf]
  rw [min_eq_left hmin]

/-- C10: a fully transparent border color forces the effective border
width to zero: draw_border_rectangle emits exactly one background fill
over the full rectangle, rounded with the base corner radius, and no
border stroke, whatever border width was requested. -/
theorem c10_transparent_border (r : Renderer) (bg bc : SlintBrush)
    (bw tlr trr brr blr w h : ℚ)
    (hT : bc.is_transparent = true) (h0w : 0 < w) (h0h : 0 < h)
    (htl : 0 ≤ tlr) (hsf : 0 ≤ r.scale_factor) :
    (draw_border_rectangle r bg bc bw ⟨tlr, trr, brr, blr⟩ ⟨w, h⟩).scene
      = r.scene ++ [SceneOp.fill FillStyle.nonZero (current_transform r)
          (ScenePaint.brush (applySceneAlpha
            (brush_to_peniko_brush_owned bg (to_kurbo_rect r ⟨⟨0, 0⟩, ⟨w, h⟩⟩))
            r.top.alpha))
          (KShape.roundedRect (to_kurbo_rect r ⟨⟨0, 0⟩, ⟨w, h⟩⟩)
            (to_physical r (borderBaseRadius tlr w h)))] := by
  have hbase0 : 0 ≤ borderBaseRadius tlr w h :=
    borderBaseRadius_nonneg tlr w h htl (le_of_lt h0w) (le_of_lt h0h)
  have heval := roundedRect_physical_eval r w h (borderBaseRadius tlr w h)
    (le_of_lt h0w) (le_of_lt h0h) hsf hbase0
    (borderBaseRadius_le_half_w tlr w h) (borderBaseRadius_le_half_h tlr w h)
  have hins : (⟨⟨(0 : ℚ), 0⟩, ⟨w - 2 * 0, h - 2 * 0⟩⟩ : LogicalRect)
      = ⟨⟨0, 0⟩, ⟨w, h⟩⟩ := by norm_num
  unfold draw_border_rectangle
  rw [if_neg (by push_neg; constructor <;> linarith)]
  cases hf : bc.is_full_alpha with
  | false =>
      simp only [hT, hf, if_true, ite_true, Bool.false_eq_true, if_false, ite_false,
        borderFillRadius_zero_bw]
      rw [heval]
      simp [KShape.rectOf]
  | true =>
      simp only [hT, hf, if_true, ite_true, borderStrokeRadius_zero_bw]
      rw [hins, heval]
      simp [KShape.rectOf]

theorem c10_witness :
    (draw_border_rectangle testRenderer (SlintBrush.solidColor ⟨10, 20, 30, 255⟩)
        (SlintBrush.solidColor ⟨0, 0, 0, 0⟩) 12 ⟨5, 0, 0, 0⟩ ⟨100, 80⟩).scene
      = testRenderer.scene ++ [SceneOp.fill FillStyle.nonZero
          (current_transform testRenderer)
          (ScenePaint.brush (applySceneAlpha
            (brush_to_peniko_brush_owned (SlintBrush.solidColor ⟨10, 20, 30, 255⟩)
              (to_kurbo_rect testRenderer ⟨⟨0, 0⟩, ⟨100, 80⟩⟩))
            testRenderer.top.alpha))
          (KShape.roundedRect (to_kurbo_rect testRenderer ⟨⟨0, 0⟩, ⟨100, 80⟩⟩)
            (to_physical testRenderer (borderBaseRadius 5 100 80)))] :=
  c10_transparent_border testRenderer (SlintBrush.solidColor ⟨10, 20, 30, 255⟩)
    (SlintBrush.solidColor ⟨0, 0, 0, 0⟩) 12 5 0 0 0 100 80
    (by decide) (by norm_num) (by norm_num) (by norm_num) (by norm_num [testRenderer, rendererNew])


theorem roundedRectFromRect_eval_corners (x0 y0 x1 y1 rad : ℚ) (hx : x0 ≤ x1) (hy : y0 ≤ y1)
    (hrad0 : 0 ≤ rad) (hrad : rad ≤ min (x1 - x0) (y1 - y0) / 2) :
    roundedRectFromRect ⟨x0, y0, x1, y1⟩ rad = KShape.roundedRect ⟨x0, y0, x1, y1⟩ rad := by
  unfold roundedRectFromRect KRect.absRect KRect.width KRect.height
  simp only []
  rw [min_eq_left hx, max_eq_right hx, min_eq_left hy, max_eq_right hy,
    abs_of_nonneg hrad0, min_eq_left hrad]

theorem draw_border_full_alpha_scene (tl trr brr blr w h bw : ℚ) (r : Renderer)
    (bg bc : SlintBrush) (hfa : bc.is_full_alpha = true) (hnt : bc.is_transparent = false)
    (h0w : 0 < w) (h0h : 0 < h) (h0bw : 0 < bw) :
    (draw_border_rectangle r bg bc bw ⟨tl, trr, brr, blr⟩ ⟨w, h⟩).scene
      = r.scene ++
        [SceneOp.fill FillStyle.nonZero (current_transform r)
          (ScenePaint.brush (applySceneAlpha
            (brush_to_peniko_brush_owned bg (insetBorderShape r tl w h bw).rectOf)
            r.top.alpha)) (insetBorderShape r tl w h bw),
         SceneOp.stroke (to_physical r bw) (current_transform r)
          (ScenePaint.brush (applySceneAlpha
            (brush_to_peniko_brush_owned bc (insetBorderShape r tl w h bw).rectOf)
            r.top.alpha)) (insetBorderShape r tl w h bw)] := by
  unfold draw_border_rectangle
  rw [if_neg (by push_neg; constructor <;> linarith)]
  simp only [hnt, hfa, if_true, ite_true, Bool.false_eq_true, if_false, ite_false,
    insetBorderShape]
  rw [if_pos ⟨trivial, h0bw⟩]
  simp [Option.getD]

/-- C6 (amended): in draw_border_rectangle the outer fill radius is the
base corner radius (the given radius clamped to half the smaller
dimension) plus half the stroke width; the inner stroke radius is the
outer radius minus half the stroke width when the base radius is
positive, and otherwise stays at the outer radius (the subtraction is
taken only when the fill radius strictly exceeds half the stroke width);
with a fully covering border color the background fill and the border
stroke both use the shape inset by the border width on all sides. -/
theorem c6_border_radius_and_inset (tl w h bw : ℚ) (r : Renderer) (bg bc : SlintBrush)
    (hfa : bc.is_full_alpha = true) (hnt : bc.is_transparent = false)
    (h0w : 0 < w) (h0h : 0 < h) (h0bw : 0 < bw) :
    borderFillRadius tl w h bw = min tl (min (w / 2) (h / 2)) + bw / 2 ∧
    (0 < borderBaseRadius tl w h →
      borderStrokeRadius tl w h bw = borderBaseRadius tl w h) ∧
    (borderBaseRadius tl w h ≤ 0 →
      borderStrokeRadius tl w h bw = borderBaseRadius tl w h + bw / 2) ∧
    (∀ trr brr blr,
      (draw_border_rectangle r bg bc bw ⟨tl, trr, brr, blr⟩ ⟨w, h⟩).scene
        = r.scene ++
          [SceneOp.fill FillStyle.nonZero (current_transform r)
            (ScenePaint.brush (applySceneAlpha
              (brush_to_peniko_brush_owned bg (insetBorderShape r tl w h bw).rectOf)
              r.top.alpha)) (insetBorderShape r tl w h bw),
           SceneOp.stroke (to_physical r bw) (current_transform r)
            (ScenePaint.brush (applySceneAlpha
              (brush_to_peniko_brush_owned bc (insetBorderShape r tl w h bw).rectOf)
              r.top.alpha)) (insetBorderShape r tl w h bw)]) := by
  refine ⟨?_, ?_, ?_, fun trr brr blr =>
    draw_border_full_alpha_scene tl trr brr blr w h bw r bg bc hfa hnt h0w h0h h0bw⟩
  · unfold borderFillRadius borderBaseRadius
    rw [min_assoc]
  · intro hpos
    unfold borderStrokeRadius
    rw [if_pos (by unfold borderFillRadius; linarith)]
    unfold borderFillRadius
    ring
  · intro hneg
    unfold borderStrokeRadius
    rw [if_neg (by unfold borderFillRadius; intro hcon; linarith)]
    unfold borderFillRadius
    rfl

theorem c6_witness :
    0 < borderBaseRadius 4 80 80 ∧
    borderStrokeRadius 4 80 80 10 = borderBaseRadius 4 80 80 :=
  ⟨by norm_num [borderBaseRadius],
   (c6_border_radius_and_inset 4 80 80 10 testRenderer
      (SlintBrush.solidColor ⟨255, 255, 255, 255⟩) (SlintBrush.solidColor ⟨0, 0, 0, 255⟩)
      (by decide) (by decide) (by norm_num) (by norm_num) (by norm_num)).2.1
    (by norm_num [borderBaseRadius])⟩

/-- C6 counterexample: with base radius zero (square corners), border
width ten and a fully covering border on an 80 by 80 rectangle, the code
keeps the stroke radius at five (half the stroke width), while the
claimed formula (outer radius minus half the stroke width, floored at the
base radius when that would go negative) gives zero; the emitted
background and stroke shapes carry radius five. -/
theorem c6_counterexample :
    borderStrokeRadius 0 80 80 10 = 5 ∧
    spec_inner_stroke_radius (borderBaseRadius 0 80 80) 10 = 0 ∧
    (5 : ℚ) ≠ 0 ∧
    insetBorderShape testRenderer 0 80 80 10 = KShape.roundedRect ⟨10, 10, 70, 70⟩ 5 ∧
    (draw_border_rectangle testRenderer (SlintBrush.solidColor ⟨0, 255, 0, 255⟩)
        (SlintBrush.solidColor ⟨0, 0, 0, 255⟩) 10 radZero ⟨80, 80⟩).scene
      = [SceneOp.fill FillStyle.nonZero Affine.identity
          (ScenePaint.brush (PenikoBrush.solid ⟨0, 255, 0, 255⟩))
          (KShape.roundedRect ⟨10, 10, 70, 70⟩ 5),
         SceneOp.stroke 10 Affine.identity
          (ScenePaint.brush (PenikoBrush.solid ⟨0, 0, 0, 255⟩))
          (KShape.roundedRect ⟨10, 10, 70, 70⟩ 5)] := by
  have hs5 : borderStrokeRadius 0 80 80 10 = 5 := by
    norm_num [borderStrokeRadius, borderFillRadius, borderBaseRadius]
  have hshape : insetBorderShape testRenderer 0 80 80 10
      = KShape.roundedRect ⟨10, 10, 70, 70⟩ 5 := by
    unfold insetBorderShape
    rw [hs5]
    have hk : to_kurbo_rect testRenderer ⟨⟨10, 10⟩, ⟨80 - 2 * 10, 80 - 2 * 10⟩⟩
        = ⟨10, 10, 70, 70⟩ := by
      norm_num [to_kurbo_rect, to_physical, testRenderer, rendererNew]
    have hp : to_physical testRenderer 5 = 5 := by
      norm_num [to_physical, testRenderer, rendererNew]
    rw [hk, hp]
    exact roundedRectFromRect_eval_corners 10 10 70 70 5 (by norm_num) (by norm_num)
      (by norm_num) (by norm_num)
  refine ⟨hs5, ?_, by norm_num, hshape, ?_⟩
  · norm_num [spec_inner_stroke_radius, borderBaseRadius]
  · simp only [radZero]
    rw [draw_border_full_alpha_scene 0 0 0 0 80 80 10 testRenderer
      (SlintBrush.solidColor ⟨0, 255, 0, 255⟩) (SlintBrush.solidColor ⟨0, 0, 0, 255⟩)
      (by decide) (by decide) (by norm_num) (by norm_num) (by norm_num), hshape]
    norm_num [testRenderer, rendererNew, current_transform, to_physical, applySceneAlpha,
      brush_to_peniko_brush_owned, to_peniko_color, apply_alpha, f32ToU8Sat, KShape.rectOf]
    try decide

/-- C5 (amended): embedded image draws bracket their single fill between a
push of a clip layer sized to the fitted target rectangle and a pop, and
nine slice draws do the same independently for every nonempty slice
(empty slices emit nothing); static texture, svg and wgpu texture draws
instead emit one plain fill with no clip layer bracket. -/
theorem c5_draw_image_clip_brackets (r : Renderer) (env : ImageFitEnv) (size : LogicalSize)
    (sw sh : ℕ) (hW : 0 < size.width) (hH : 0 < size.height) (hsw : sw ≠ 0) (hsh : sh ≠ 0) :
    (∀ buffer : SharedImageBuffer, ∃ st t p s2,
      (draw_image r env (ImageInner.embeddedImage buffer) size sw sh).scene
        = r.scene ++
          [SceneOp.pushLayer r.top.alpha (current_transform r)
            (KShape.rect ⟨env.fitResult.offset_x, env.fitResult.offset_y,
              env.fitResult.offset_x + env.fitResult.size_w,
              env.fitResult.offset_y + env.fitResult.size_h⟩),
           SceneOp.fill st t p s2, SceneOp.popLayer]) ∧
    (∀ (r2 : Renderer) (data : List ℕ) (premult : Bool) (iw ih : ℕ) (fit : FitResult),
      (fit.clip_rect.isEmptyRect = true → nineSliceFitOps r2 data premult iw ih fit = []) ∧
      (fit.clip_rect.isEmptyRect = false → ∃ tl st t2 p s2,
        nineSliceFitOps r2 data premult iw ih fit
          = [SceneOp.pushLayer r2.top.alpha tl
              (KShape.rect ⟨fit.offset_x, fit.offset_y, fit.offset_x + fit.size_w,
                fit.offset_y + fit.size_h⟩),
             SceneOp.fill st t2 p s2, SceneOp.popLayer])) ∧
    (∀ buffer borders,
      (draw_image r env (ImageInner.nineSlice (some buffer) borders) size sw sh).scene
        = r.scene ++ env.nineSliceFits.flatMap
            (nineSliceFitOps ((get_or_create_image_data r buffer).2)
              ((get_or_create_image_data r buffer).1.1)
              ((get_or_create_image_data r buffer).1.2.1)
              ((get_or_create_image_data r buffer).1.2.2.1)
              ((get_or_create_image_data r buffer).1.2.2.2))) ∧
    (∀ st : StaticTexturesData, ∃ t p s2,
      (draw_image r env (ImageInner.staticTextures st) size sw sh).scene
        = r.scene ++ [SceneOp.fill FillStyle.nonZero t p s2]) ∧
    (∀ (nw nh : ℕ) (buffer : SharedImageBuffer), env.svgRendered = some buffer →
      ∃ t p s2, (draw_image r env (ImageInner.svg nw nh) size sw sh).scene
        = r.scene ++ [SceneOp.fill FillStyle.nonZero t p s2]) ∧
    (∀ (ww hh : ℕ) (bytes : List ℕ),
      env.wgpuReaderResult = some (some (ww, hh, bytes)) →
      ∃ t p s2, (draw_image r env ImageInner.wgpuTexture size sw sh).scene
        = r.scene ++ [SceneOp.fill FillStyle.nonZero t p s2]) := by
  have hno1 : ¬(size.width ≤ 0 ∨ size.height ≤ 0) := by
    push_neg
    constructor <;> linarith
  have hno2 : ¬(sw = 0 ∨ sh = 0) := by
    push_neg
    exact ⟨hsw, hsh⟩
  refine ⟨?_, ?_, ?_, ?_, ?_, ?_⟩
  · intro buffer
    unfold draw_image
    rw [if_neg hno1, if_neg hno2]
    simp only []
    unfold embeddedImageOps current_transform
    rw [get_or_create_scene, get_or_create_top]
    exact ⟨_, _, _, _, rfl⟩
  · intro r2 data premult iw ih fit
    constructor
    · intro hemp
      unfold nineSliceFitOps
      rw [if_pos hemp]
    · intro hne
      unfold nineSliceFitOps
      rw [if_neg (by simp [hne])]
      exact ⟨_, _, _, _, _, rfl⟩
  · intro buffer borders
    unfold draw_image
    rw [if_neg hno1, if_neg hno2]
    simp [get_or_create_scene]
  · intro st
    unfold draw_image
    rw [if_neg hno1, if_neg hno2]
    exact ⟨_, _, _, rfl⟩
  · intro nw nh buffer hsvg
    unfold draw_image
    rw [if_neg hno1, if_neg hno2]
    simp only [hsvg]
    exact ⟨_, _, _, rfl⟩
  · intro ww hh bytes hw
    unfold draw_image
    rw [if_neg hno1, if_neg hno2]
    simp only [hw]
    exact ⟨_, _, _, rfl⟩

theorem c5_witness :
    ∃ st t p s2,
      (draw_image testRenderer imgEnvTrivial (ImageInner.embeddedImage bufA)
          ⟨50, 50⟩ 1 1).scene
        = testRenderer.scene ++
          [SceneOp.pushLayer testRenderer.top.alpha (current_transform testRenderer)
            (KShape.rect ⟨imgEnvTrivial.fitResult.offset_x, imgEnvTrivial.fitResult.offset_y,
              imgEnvTrivial.fitResult.offset_x + imgEnvTrivial.fitResult.size_w,
              imgEnvTrivial.fitResult.offset_y + imgEnvTrivial.fitResult.size_h⟩),
           SceneOp.fill st t p s2, SceneOp.popLayer] :=
  (c5_draw_image_clip_brackets testRenderer imgEnvTrivial ⟨50, 50⟩ 1 1
    (by norm_num) (by norm_num) (by decide) (by decide)).1 bufA

/-- C5 counterexample: a static texture image draw emits exactly one fill
operation and pushes no clip layer at all, so its fill is not bracketed
between a push and a pop of a clip layer. -/
theorem c5_counterexample :
    (draw_image testRenderer imgEnvTrivial (ImageInner.staticTextures stData)
        ⟨50, 50⟩ 1 1).scene
      = [SceneOp.fill FillStyle.nonZero Affine.identity
          (ScenePaint.image ⟨[1, 2, 3, 4], true, 1, 1, 1⟩)
          (KShape.rect ⟨0, 0, 50, 50⟩)] ∧
    countFills (draw_image testRenderer imgEnvTrivial (ImageInner.staticTextures stData)
        ⟨50, 50⟩ 1 1).scene = 1 ∧
    countPushLayers (draw_image testRenderer imgEnvTrivial
        (ImageInner.staticTextures stData) ⟨50, 50⟩ 1 1).scene = 0 := by
  have h1 : (draw_image testRenderer imgEnvTrivial (ImageInner.staticTextures stData)
        ⟨50, 50⟩ 1 1).scene
      = [SceneOp.fill FillStyle.nonZero Affine.identity
          (ScenePaint.image ⟨[1, 2, 3, 4], true, 1, 1, 1⟩)
          (KShape.rect ⟨0, 0, 50, 50⟩)] := by
    norm_num [draw_image, stData, imgEnvTrivial, testRenderer, rendererNew, to_physical,
      current_transform]
  refine ⟨h1, ?_, ?_⟩ <;> rw [h1] <;> simp [countFills, countPushLayers]
